import Mathlib

set_option maxRecDepth 8000

/-!
Shallow embedding of `scripts/claude_headless.py` (a macOS launcher wrapping
the `claude` CLI) and proofs of the specification's claims about it.

Conventions of the embedding:
* Python strings are Lean `String`s; character-level operations are written
  as structurally recursive functions over `String.data` so that every
  definition evaluates by kernel reduction.
* The OS (filesystem probes, `$PATH`, subprocess exit codes, wall-clock
  timestamps, tmux pane captures) is an explicit `Env` record of pure
  functions; an operation that can raise `OSError`/`CalledProcessError` is a
  function into `Except Unit _`.
* Wall-clock time is discrete milliseconds; `time.sleep` advances the clock,
  everything else is instantaneous.
-/

namespace ClaudeHeadless

/-- Execution mode: the value space of the launcher's `--mode` flag
(`choices=["auto", "headless", "interactive"]`). -/
inductive Mode where
  | auto
  | headless
  | interactive
deriving DecidableEq

/-- Characters trimmed by Python `str.strip()`: exactly the characters `c`
with `c.isspace()` true (ASCII whitespace, the `\x1c`-`\x1f` separators and
the Unicode space characters). -/
def isPySpace (c : Char) : Bool :=
  c == ' ' || c == '\t' || c == '\n' || c == '\r' ||
  c == Char.ofNat 11 || c == Char.ofNat 12 ||
  (decide (28 ≤ c.toNat) && decide (c.toNat ≤ 31)) ||
  c == Char.ofNat 133 || c == Char.ofNat 160 || c == Char.ofNat 5760 ||
  (decide (8192 ≤ c.toNat) && decide (c.toNat ≤ 8202)) ||
  c == Char.ofNat 8232 || c == Char.ofNat 8233 ||
  c == Char.ofNat 8239 || c == Char.ofNat 8287 || c == Char.ofNat 12288

/-- Python `str.strip()`: drop leading and trailing whitespace. -/
def pyStrip (s : String) : String :=
  String.mk (((s.data.dropWhile isPySpace).reverse.dropWhile isPySpace).reverse)

/-- Line-boundary characters of Python `str.splitlines()`:
`\n`, `\r` (with `\r\n` counting as a single boundary), `\v`, `\f`,
`\x1c`, `\x1d`, `\x1e`, `\x85`, `U+2028`, `U+2029`. -/
def isLineBreakChar (c : Char) : Bool :=
  c == '\n' || c == '\r' || c == Char.ofNat 11 || c == Char.ofNat 12 ||
  c == Char.ofNat 28 || c == Char.ofNat 29 || c == Char.ofNat 30 ||
  c == Char.ofNat 133 || c == Char.ofNat 8232 || c == Char.ofNat 8233

/-- Worker for `pySplitlines`: the accumulator holds the current line
reversed; a trailing line-boundary produces no final empty line, matching
Python `str.splitlines()`. -/
def splitlinesAux : List Char → List Char → List String
  | [], acc => if acc.isEmpty then [] else [String.mk acc.reverse]
  | '\r' :: '\n' :: cs, acc => String.mk acc.reverse :: splitlinesAux cs []
  | c :: cs, acc =>
    if isLineBreakChar c then
      String.mk acc.reverse :: splitlinesAux cs []
    else
      splitlinesAux cs (c :: acc)

/-- Python `str.splitlines()`. -/
def pySplitlines (s : String) : List String := splitlinesAux s.data []

/-- Python `line.startswith("/")`: the first character is a slash. -/
def startsWithSlash : List Char → Bool
  | [] => false
  | c :: _ => c == '/'

/-- `looks_like_slash_commands` (source lines 52-56): a falsy prompt (None
or the empty string) yields False, otherwise True iff some line of the
prompt, stripped, starts with a slash. -/
def looks_like_slash_commands (prompt : Option String) : Bool :=
  match prompt with
  | none => false
  | some s =>
    if s = "" then false
    else (pySplitlines s).any (fun line => startsWithSlash (pyStrip line).data)

/-- The `mode` variable after the auto heuristic in `main` (source lines
402-405): `auto` becomes `interactive` when the prompt contains slash
commands, otherwise the flag value is kept as is. -/
def mode_after_auto (prompt : Option String) (m : Mode) : Mode :=
  if m = Mode.auto ∧ looks_like_slash_commands prompt = true then Mode.interactive
  else m

/-- The concrete execution mode the dispatch in `main` realises: every
non-`interactive` value of `mode_after_auto` (including a leftover `auto`)
takes the headless path. -/
def resolve_mode (prompt : Option String) (m : Mode) : Mode :=
  if mode_after_auto prompt m = Mode.interactive then Mode.interactive
  else Mode.headless

/-- The single-quote character (written by codepoint throughout). -/
def squote : Char := Char.ofNat 39

/-- The double-quote character. -/
def dquote : Char := Char.ofNat 34

/-- The backslash character. -/
def bslash : Char := Char.ofNat 92

/-- Characters `shlex.quote` treats as safe: the complement of Python's
`_find_unsafe` character class (compiled with `re.ASCII`), i.e. ASCII
letters, digits, underscore and `@` `%` `+` `=` `:` `,` `.` `/` `-`. -/
def isShSafe (c : Char) : Bool :=
  (decide (97 ≤ c.toNat) && decide (c.toNat ≤ 122)) ||
  (decide (65 ≤ c.toNat) && decide (c.toNat ≤ 90)) ||
  (decide (48 ≤ c.toNat) && decide (c.toNat ≤ 57)) ||
  c == '_' || c == '@' || c == '%' || c == '+' || c == '=' ||
  c == ':' || c == ',' || c == '.' || c == '/' || c == '-'

/-- Python `s.replace("'", "'\"'\"'")` at character level: each single
quote becomes close-quote, double-quoted quote, reopen-quote. -/
def escapeSQ : List Char → List Char
  | [] => []
  | c :: cs =>
    if c = squote then
      squote :: dquote :: squote :: dquote :: squote :: escapeSQ cs
    else c :: escapeSQ cs

/-- Python `shlex.quote` (stdlib), as invoked by `run_background` for the
log header: empty string becomes a pair of single quotes; a string of only
safe characters is returned bare; anything else is single-quoted with the
embedded-quote dance of `escapeSQ`. -/
def shlexQuote (s : String) : String :=
  if s = "" then String.mk [squote, squote]
  else if s.data.all isShSafe then s
  else String.mk (squote :: (escapeSQ s.data ++ [squote]))

/-- Python `sep.join(xs)`. -/
def pyJoin (sep : String) : List String → String
  | [] => ""
  | [x] => x
  | x :: xs => x ++ sep ++ pyJoin sep xs

/-- The shell-escaped command line written after `# Command: ` in a
background run's log header (source line 116):
`' '.join(shlex.quote(c) for c in cmd)`. -/
def headerCmdLine (cmd : List String) : String :=
  pyJoin " " (cmd.map shlexQuote)

/-- Field-separator characters of POSIX shell word splitting. -/
def isIFS (c : Char) : Bool := c == ' ' || c == '\t' || c == '\n'

/-- Lexer state of the POSIX word splitter: between words, inside a bare
word, inside single quotes, inside double quotes, and the two states of
having just read a backslash (in a bare word, and inside double quotes). -/
inductive SplitState where
  | between
  | word
  | singleQ
  | doubleQ
  | escWord
  | escDQ

/-- Modelled from the spec: the "shell-unescaping (splitting)" operation of
the round-trip property is not part of the source repository; it is POSIX
shell word splitting (the semantics of Python `shlex.split`), modelled here
as a quote- and backslash-aware lexer. `none` models the lexer raising on
an unterminated quote or a trailing backslash. The accumulator holds the
current word reversed. -/
def splitPosix : SplitState → List Char → List Char → Option (List String)
  | SplitState.between, [], _ => some []
  | SplitState.word, [], acc => some [String.mk acc.reverse]
  | SplitState.singleQ, [], _ => none
  | SplitState.doubleQ, [], _ => none
  | SplitState.escWord, [], _ => none
  | SplitState.escDQ, [], _ => none
  | SplitState.between, c :: cs, _ =>
    if isIFS c = true then splitPosix SplitState.between cs []
    else if c = squote then splitPosix SplitState.singleQ cs []
    else if c = dquote then splitPosix SplitState.doubleQ cs []
    else if c = bslash then splitPosix SplitState.escWord cs []
    else splitPosix SplitState.word cs [c]
  | SplitState.word, c :: cs, acc =>
    if isIFS c = true then
      (splitPosix SplitState.between cs []).map (fun ws => String.mk acc.reverse :: ws)
    else if c = squote then splitPosix SplitState.singleQ cs acc
    else if c = dquote then splitPosix SplitState.doubleQ cs acc
    else if c = bslash then splitPosix SplitState.escWord cs acc
    else splitPosix SplitState.word cs (c :: acc)
  | SplitState.escWord, c :: cs, acc => splitPosix SplitState.word cs (c :: acc)
  | SplitState.singleQ, c :: cs, acc =>
    if c = squote then splitPosix SplitState.word cs acc
    else splitPosix SplitState.singleQ cs (c :: acc)
  | SplitState.doubleQ, c :: cs, acc =>
    if c = dquote then splitPosix SplitState.word cs acc
    else if c = bslash then splitPosix SplitState.escDQ cs acc
    else splitPosix SplitState.doubleQ cs (c :: acc)
  | SplitState.escDQ, c :: cs, acc =>
    if c = dquote ∨ c = bslash ∨ c = '$' ∨ c = Char.ofNat 96 then
      splitPosix SplitState.doubleQ cs (c :: acc)
    else if c = '\n' then splitPosix SplitState.doubleQ cs acc
    else splitPosix SplitState.doubleQ cs (c :: bslash :: acc)

/-- POSIX shell word splitting of a whole string (see `splitPosix`). -/
def posixSplit (s : String) : Option (List String) :=
  splitPosix SplitState.between s.data []

/-- Whether `pat` is a contiguous prefix of `hay`. -/
def prefixOfAux : List Char → List Char → Bool
  | [], _ => true
  | _ :: _, [] => false
  | p :: ps, h :: hs => p == h && prefixOfAux ps hs

/-- Whether `pat` occurs contiguously inside `hay` (Python `pat in hay`). -/
def listContains (hay pat : List Char) : Bool :=
  if prefixOfAux pat hay then true
  else
    match hay with
    | [] => false
    | _ :: t => listContains t pat

/-- Python substring test `pattern in buf`. -/
def containsSub (hay pat : String) : Bool := listContains hay.data pat.data

/-- The OS environment an invocation runs against. `probe cand` models the
`try: cand.is_file() and os.access(cand, os.X_OK) except OSError` block of
`which` (an `Except.error` is a raised `OSError`); `pathExists` models
`Path(p).exists()`; `runResult` gives the exit code of a blocking
`subprocess.run` of an argument vector in a working directory;
`childOutput` is the combined stdout/stderr a background child appends to
its log; `childExitCode` is the exit status that detached child eventually
dies with (never observed by the launcher); the two strftime fields are the
wall-clock timestamp strings taken at launch. -/
structure Env where
  pathVar : String
  probe : String → Except Unit Bool
  pathExists : String → Bool
  getcwd : String
  strftimeStamp : String
  strftimeHuman : String
  runResult : List String → Option String → Int
  childOutput : List String → String
  childExitCode : List String → Int

/-- Python `str.split(sep)` for a one-character separator (keeps empty
fields; the empty string splits to one empty field). -/
def splitOnChar (sep : Char) : List Char → List (List Char)
  | [] => [[]]
  | c :: cs =>
    let r := splitOnChar sep cs
    if c = sep then [] :: r
    else
      match r with
      | [] => [[c]]
      | h :: t => (c :: h) :: t

/-- `str(Path(dir) / name)` for the shapes occurring in `which`'s PATH
scan: an empty or `.` directory yields the bare name, otherwise the two are
joined with a slash (no duplicate slash). -/
def pathJoin (dir name : String) : String :=
  if dir = "" ∨ dir = "." then name
  else if dir.data.getLast? = some '/' then dir ++ name
  else dir ++ "/" ++ name

/-- The directories of `os.environ.get("PATH", "").split(":")`. -/
def pathDirs (env : Env) : List String :=
  (splitOnChar ':' env.pathVar.data).map String.mk

/-- The PATH scan of `which` (source lines 40-49): first candidate whose
probe succeeds with True wins; a probe returning False or raising `OSError`
is skipped. -/
def whichGo (env : Env) (name : String) : List String → Option String
  | [] => none
  | d :: ds =>
    match env.probe (pathJoin d name) with
    | Except.ok true => some (pathJoin d name)
    | Except.ok false => whichGo env name ds
    | Except.error _ => whichGo env name ds

/-- `which` (source lines 40-49): find an executable on PATH, or None.
Totality of this function is the "never raises" half of the contract. -/
def which (env : Env) (name : String) : Option String :=
  whichGo env name (pathDirs env)

/-- The candidate paths `which` scans, in scan order. -/
def candidates (env : Env) (name : String) : List String :=
  (pathDirs env).map (fun d => pathJoin d name)

/-- Whether a candidate passes `which`'s probe: regular file with execute
permission, with a raised `OSError` counting as a non-match. -/
def probeOk (env : Env) (cand : String) : Bool :=
  match env.probe cand with
  | Except.ok b => b
  | Except.error _ => false

/-- Python truthiness of an optional string flag (`if args.x:`). -/
def pyTruthyStr : Option String → Bool
  | none => false
  | some s => !(s == "")

/-- The parsed command-line arguments of one invocation, after argparse and
after the leading `--` has been stripped from `extra`. -/
structure Args where
  prompt : Option String
  mode : Mode
  permission_mode : Option String
  allowed_tools : Option String
  output_format : Option String
  json_schema : Option String
  append_system_prompt : Option String
  system_prompt : Option String
  continue_latest : Bool
  resume : Option String
  claude_bin : String
  cwd : Option String
  notify : Bool
  clipboard : Bool
  background : Bool
  log_dir : String
  tmux_session : String
  interactive_wait_s : Int
  interactive_send_delay_ms : Int
  extra : List String

/-- `build_headless_cmd` (source lines 77-102): the claude CLI argument
vector for headless mode. Note `args.prompt` is tested with `is not None`
(an empty prompt still adds `-p`), the other string flags by truthiness. -/
def build_headless_cmd (a : Args) : List String :=
  [a.claude_bin] ++
  (if pyTruthyStr a.permission_mode then ["--permission-mode", a.permission_mode.getD ""] else []) ++
  (match a.prompt with
   | some p => ["-p", p]
   | none => []) ++
  (if pyTruthyStr a.allowed_tools then ["--allowedTools", a.allowed_tools.getD ""] else []) ++
  (if pyTruthyStr a.output_format then ["--output-format", a.output_format.getD ""] else []) ++
  (if pyTruthyStr a.json_schema then ["--json-schema", a.json_schema.getD ""] else []) ++
  (if pyTruthyStr a.append_system_prompt then ["--append-system-prompt", a.append_system_prompt.getD ""] else []) ++
  (if pyTruthyStr a.system_prompt then ["--system-prompt", a.system_prompt.getD ""] else []) ++
  (if a.continue_latest then ["--continue"] else []) ++
  (if pyTruthyStr a.resume then ["--resume", a.resume.getD ""] else []) ++
  a.extra

/-- `os.path.join(log_dir, name)` for a relative `name`. -/
def osPathJoin (dir name : String) : String :=
  if dir = "" then name
  else if dir.data.getLast? = some '/' then dir ++ name
  else dir ++ "/" ++ name

/-- Python `cwd or os.getcwd()`: the fallback is taken when `cwd` is None
or the empty string (both falsy). -/
def pyOrStr (o : Option String) (dflt : String) : String :=
  match o with
  | some s => if s = "" then dflt else s
  | none => dflt

/-- Whether a POSIX path string is absolute. -/
def isAbsolutePath (s : String) : Bool := startsWithSlash s.data

/-- The observable artifact of one background launch: the log file path,
the `CWD` header field, the argument vector actually spawned, the final
log file content (header followed by the child's combined output) and the
value `run_background` returns to `main`. -/
structure BgResult where
  logPath : String
  cwdField : String
  fullCmd : List String
  logContent : String
  exitCode : Int

/-- The command `run_background` spawns (source lines 121-125): wrapped
under the discovered `script` binary when one is on PATH, bare otherwise. -/
def bg_full_cmd (env : Env) (cmd : List String) : List String :=
  match which env "script" with
  | some script_bin => [script_bin, "-q", "/dev/null"] ++ cmd
  | none => cmd

/-- `run_background` (source lines 105-157): computes the timestamped log
path, writes and flushes the three-line header plus blank line before
spawning the detached child (so the log content is the header followed by
the child's output), and returns 0 immediately without waiting for the
child. -/
def run_background (env : Env) (cmd : List String) (cwd : Option String)
    (log_dir : String) : BgResult :=
  { logPath := osPathJoin log_dir ("claude-" ++ env.strftimeStamp ++ ".log")
    cwdField := pyOrStr cwd env.getcwd
    fullCmd := bg_full_cmd env cmd
    logContent :=
      "# Command: " ++ headerCmdLine cmd ++ "\n" ++
      "# Started: " ++ env.strftimeHuman ++ "\n" ++
      "# CWD: " ++ pyOrStr cwd env.getcwd ++ "\n" ++ "\n" ++
      env.childOutput (bg_full_cmd env cmd)
    exitCode := 0 }

/-- The argument vector `run_with_pty` executes (source lines 160-175):
wrapped under the discovered `script` binary when one is on PATH, else the
bare command (graceful degradation). -/
def run_with_pty_cmd (env : Env) (cmd : List String) : List String :=
  match which env "script" with
  | none => cmd
  | some script_bin => [script_bin, "-q", "/dev/null"] ++ cmd

/-- `run_with_pty` (source lines 160-175): run the (possibly wrapped)
command synchronously and return the child's exit code verbatim. -/
def run_with_pty (env : Env) (cmd : List String) (cwd : Option String) : Int :=
  env.runResult (run_with_pty_cmd env cmd) cwd

/-- A tmux pane capture trace: the content `tmux capture-pane` would return
at each wall-clock millisecond, or `Except.error ()` when the capture
subprocess fails (`CalledProcessError`). -/
abbrev Capture := Nat → Except Unit String

/-- The polling loop of `tmux_wait_for_text` (source lines 197-206), over
discrete milliseconds: while the clock is before the deadline, capture the
pane (a capture error is swallowed), return True at the capture instant on
a match, otherwise sleep one poll interval. The result's second component
is the clock value at return. The `fuel` argument is an artifact of
totality: it is chosen by `tmux_wait_for_text` so that it never runs out
when the poll interval is positive (all call sites use 500ms). -/
def waitGo (capture : Capture) (pattern : String) (deadline poll : Nat) :
    Nat → Nat → Bool × Nat
  | now, 0 => (false, now)
  | now, fuel + 1 =>
    if now < deadline then
      match capture now with
      | Except.ok buf =>
        if containsSub buf pattern = true then (true, now)
        else waitGo capture pattern deadline poll (now + poll) fuel
      | Except.error _ => waitGo capture pattern deadline poll (now + poll) fuel
    else (false, now)

/-- `tmux_wait_for_text` (source lines 193-206): the deadline is computed
once at loop entry as start time plus timeout; times in milliseconds
(source defaults: timeout 30s, poll 0.5s, passed explicitly here). -/
def tmux_wait_for_text (capture : Capture) (pattern : String)
    (timeout_ms poll_ms start : Nat) : Bool × Nat :=
  waitGo capture pattern (start + timeout_ms) poll_ms start (timeout_ms + 1)

/-- A keystroke injected into the tmux pane: the Enter key, or a literal
string sent with `send-keys -l`. -/
inductive TmuxKey where
  | enter
  | lit (s : String)
deriving DecidableEq

/-- The workspace-trust confirmation substring polled for (source line 254). -/
def trustPromptPattern : String := "Yes, I trust this folder"

/-- The TrustPrompt step of `run_interactive_tmux` (source lines 253-259):
poll 20s at 0.5s for the trust prompt; if found send Enter, sleep 0.8s,
re-poll 2s at 0.5s, and if the prompt is still shown send a literal "1"
then Enter; if the prompt never shows within the first timeout, send
nothing. Returns the keys sent and the clock at completion. -/
def run_trust_prompt (capture : Capture) (start : Nat) : List TmuxKey × Nat :=
  if (tmux_wait_for_text capture trustPromptPattern 20000 500 start).1 = true then
    if (tmux_wait_for_text capture trustPromptPattern 2000 500
          ((tmux_wait_for_text capture trustPromptPattern 20000 500 start).2 + 800)).1 = true then
      ([TmuxKey.enter, TmuxKey.lit "1", TmuxKey.enter],
       (tmux_wait_for_text capture trustPromptPattern 2000 500
         ((tmux_wait_for_text capture trustPromptPattern 20000 500 start).2 + 800)).2)
    else
      ([TmuxKey.enter],
       (tmux_wait_for_text capture trustPromptPattern 2000 500
         ((tmux_wait_for_text capture trustPromptPattern 20000 500 start).2 + 800)).2)
  else
    ([], (tmux_wait_for_text capture trustPromptPattern 20000 500 start).2)

/-- Control-flow skeleton of `run_interactive_tmux` (source lines 209-284):
a missing tmux binary is a fatal precondition (exit 2 with a diagnostic on
stderr); otherwise the session is driven (the keystroke sequencing of the
TrustPrompt step is modelled separately by `run_trust_prompt` over a
capture trace) and the function returns 0. Failures of the intermediate
`check_call`s would propagate as exceptions and are outside the modelled
fragment. -/
def run_interactive_tmux (env : Env) (_a : Args) : Int × List String :=
  match which env "tmux" with
  | none => (2, ["Error: tmux not found. Install via: brew install tmux"])
  | some _ => (0, [])

/-- The mode the dispatch in `main` acts on (source lines 402-405). -/
def effectiveMode (a : Args) : Mode := mode_after_auto a.prompt a.mode

/-- Claude-binary resolution in `main` (source lines 390-400): the
configured path if it exists, else a PATH lookup of `claude`, else None
(which `main` turns into exit code 2). -/
def resolveClaudeBin (env : Env) (a : Args) : Option String :=
  if env.pathExists a.claude_bin then some a.claude_bin
  else which env "claude"

/-- The observable outcome of one `main` invocation: the exit code, the
diagnostics printed to stderr, and the argument vector handed to the OS
(the spawned background command, or the synchronously run command; None
for the interactive path and the missing-binary error path). -/
structure MainOut where
  exitCode : Int
  stderrLines : List String
  executed : Option (List String)

/-- The dispatch of `main` after binary resolution (source lines 402-436):
background (when requested and the mode is not interactive), else the
interactive tmux path, else the clipboard capture path (which hard-codes a
literal `script` wrapper), else `run_with_pty`. The optional completion
notification does not alter the returned exit code. -/
def mainDispatch (env : Env) (a : Args) : MainOut :=
  if a.background = true ∧ effectiveMode a ≠ Mode.interactive then
    { exitCode := (run_background env (build_headless_cmd a) a.cwd a.log_dir).exitCode
      stderrLines := []
      executed := some (run_background env (build_headless_cmd a) a.cwd a.log_dir).fullCmd }
  else if effectiveMode a = Mode.interactive then
    { exitCode := (run_interactive_tmux env a).1
      stderrLines := (run_interactive_tmux env a).2
      executed := none }
  else if a.clipboard = true then
    { exitCode := env.runResult (["script", "-q", "/dev/null"] ++ build_headless_cmd a) a.cwd
      stderrLines := []
      executed := some (["script", "-q", "/dev/null"] ++ build_headless_cmd a) }
  else
    { exitCode := run_with_pty env (build_headless_cmd a) a.cwd
      stderrLines := []
      executed := some (run_with_pty_cmd env (build_headless_cmd a)) }

/-- `main` (source lines 287-436), from the point the parsed arguments are
in hand: resolve the claude binary (exit 2 with diagnostics when it cannot
be located), substitute the resolved path into the arguments, dispatch. -/
def main (env : Env) (a : Args) : MainOut :=
  match resolveClaudeBin env a with
  | none =>
    { exitCode := 2
      stderrLines :=
        ["Error: claude binary not found at " ++ a.claude_bin,
         "Install: npm install -g @anthropic-ai/claude-code",
         "Or set CLAUDE_CODE_BIN=/path/to/claude"]
      executed := none }
  | some bin => mainDispatch env { a with claude_bin := bin }

/-- Test environment: empty PATH behaviour — every probe raises, no path
exists, every synchronous run exits 0. -/
def envStub : Env :=
  { pathVar := ""
    probe := fun _ => Except.error ()
    pathExists := fun _ => false
    getcwd := "/"
    strftimeStamp := "20260101-000000"
    strftimeHuman := "2026-01-01 00:00:00"
    runResult := fun _ _ => 0
    childOutput := fun _ => ""
    childExitCode := fun _ => 0 }

/-- Test environment: the configured claude binary exists; nothing is on
PATH. -/
def envWithClaude : Env :=
  { envStub with pathExists := fun p => p == "/usr/local/bin/claude" }

/-- Test environment: claude exists and every synchronous child exits 7. -/
def envExit7 : Env :=
  { envWithClaude with runResult := fun _ _ => 7 }

/-- Test environment: claude exists and the detached background child
eventually exits 7. -/
def envBgChild7 : Env :=
  { envWithClaude with childExitCode := fun _ => 7 }

/-- Baseline parsed arguments: headless mode, no optional flags. -/
def argsBase : Args :=
  { prompt := none
    mode := Mode.headless
    permission_mode := none
    allowed_tools := none
    output_format := none
    json_schema := none
    append_system_prompt := none
    system_prompt := none
    continue_latest := false
    resume := none
    claude_bin := "/usr/local/bin/claude"
    cwd := none
    notify := false
    clipboard := false
    background := false
    log_dir := "/logs"
    tmux_session := "claude-code"
    interactive_wait_s := 0
    interactive_send_delay_ms := 800
    extra := [] }

/-- Baseline arguments with `--mode interactive`. -/
def argsInteractive : Args := { argsBase with mode := Mode.interactive }

/-- Baseline arguments with `--clipboard`. -/
def argsClipboard : Args := { argsBase with clipboard := true }

/-- Baseline arguments with `--background`. -/
def argsBackground : Args := { argsBase with background := true }

/-- A capture trace whose pane text never contains the patterns used in
the polling theorems. -/
def capNoMatch : Capture := fun _ => Except.ok "hello"

/-- A capture trace on which every pane capture fails. -/
def capErrAll : Capture := fun _ => Except.error ()

/-- A capture trace that always shows the workspace-trust prompt. -/
def capTrustShown : Capture := fun _ => Except.ok "> Yes, I trust this folder"

end ClaudeHeadless

namespace ClaudeHeadless

/-- String append acts as list append on the underlying data. -/
theorem data_append (a b : String) : (a ++ b).data = a.data ++ b.data := rfl

/-- Rebuilding a string from its data is the identity. -/
theorem string_mk_data (s : String) : String.mk s.data = s := rfl

/-- `looks_like_slash_commands` on a present prompt is exactly the
any-line-starts-with-slash test (the empty-prompt guard agrees with the
test on zero lines). -/
theorem looks_eq_any (s : String) :
    looks_like_slash_commands (some s) =
      (pySplitlines s).any (fun line => startsWithSlash (pyStrip line).data) := by
  by_cases h : s = ""
  · subst h; decide
  · simp [looks_like_slash_commands, h]

/-- `resolve_mode` under `auto` is decided by the slash-command heuristic. -/
theorem resolve_auto_eq (P : String) :
    resolve_mode (some P) Mode.auto =
      (if (pySplitlines P).any (fun line => startsWithSlash (pyStrip line).data) = true
       then Mode.interactive else Mode.headless) := by
  rw [← looks_eq_any]
  by_cases h : looks_like_slash_commands (some P) = true
  · simp [resolve_mode, mode_after_auto, h]
  · have h2 : looks_like_slash_commands (some P) = false := by
      cases hx : looks_like_slash_commands (some P)
      · rfl
      · exact absurd hx h
    simp [resolve_mode, mode_after_auto, h2]

/-- C1: resolving mode `auto` yields `interactive` iff some line of the
prompt, stripped of whitespace, begins with a slash, and otherwise yields
`headless` (in particular for the absent and the empty prompt); an
explicitly supplied `headless` or `interactive` mode flag overrides the
heuristic. -/
theorem resolve_mode_spec (P : String) :
    (resolve_mode (some P) Mode.auto = Mode.interactive ↔
      ∃ line ∈ pySplitlines P, startsWithSlash (pyStrip line).data = true) ∧
    (resolve_mode (some P) Mode.auto = Mode.headless ↔
      ¬ ∃ line ∈ pySplitlines P, startsWithSlash (pyStrip line).data = true) ∧
    resolve_mode none Mode.auto = Mode.headless ∧
    resolve_mode (some "") Mode.auto = Mode.headless ∧
    resolve_mode (some P) Mode.headless = Mode.headless ∧
    resolve_mode (some P) Mode.interactive = Mode.interactive := by
  have key := resolve_auto_eq P
  refine ⟨?_, ?_, by decide, by decide, ?_, ?_⟩
  · rw [key]
    by_cases h : (pySplitlines P).any (fun line => startsWithSlash (pyStrip line).data) = true
    · rw [if_pos h]
      exact ⟨fun _ => (List.any_eq_true).mp h, fun _ => rfl⟩
    · rw [if_neg h]
      constructor
      · intro hh; exact absurd hh (by decide)
      · intro hex
        exact absurd ((List.any_eq_true).mpr hex) h
  · rw [key]
    by_cases h : (pySplitlines P).any (fun line => startsWithSlash (pyStrip line).data) = true
    · rw [if_pos h]
      constructor
      · intro hh; exact absurd hh (by decide)
      · intro hne; exact absurd ((List.any_eq_true).mp h) hne
    · rw [if_neg h]
      constructor
      · intro _ hex; exact absurd ((List.any_eq_true).mpr hex) h
      · intro _; rfl
  · simp [resolve_mode, mode_after_auto]
  · simp [resolve_mode, mode_after_auto]

/-- Witness for C1 at the four spec examples plus an override case. -/
theorem resolve_mode_spec_witness :
    resolve_mode (some "/help") Mode.auto = Mode.interactive ∧
    resolve_mode (some "hello\n/clear") Mode.auto = Mode.interactive ∧
    resolve_mode (some "hello world") Mode.auto = Mode.headless ∧
    resolve_mode (some "") Mode.auto = Mode.headless ∧
    resolve_mode (some "/help") Mode.headless = Mode.headless := by
  refine ⟨?_, ?_, ?_, ?_, ?_⟩
  · exact (resolve_mode_spec "/help").1.mpr ⟨"/help", by decide, by decide⟩
  · exact (resolve_mode_spec "hello\n/clear").1.mpr ⟨"/clear", by decide, by decide⟩
  · exact (resolve_mode_spec "hello world").2.1.mpr (by decide)
  · exact (resolve_mode_spec "").2.2.2.1
  · exact (resolve_mode_spec "/help").2.2.2.2.1

/-- The PATH scan equals a first-match search over the candidate list. -/
theorem whichGo_eq_find (env : Env) (name : String) :
    ∀ dirs : List String,
      whichGo env name dirs = (dirs.map (fun d => pathJoin d name)).find? (probeOk env) := by
  intro dirs
  induction dirs with
  | nil => rfl
  | cons d ds ih =>
    cases hp : env.probe (pathJoin d name) with
    | ok b =>
      cases b
      · simp [whichGo, hp, List.find?, probeOk, ih]
      · simp [whichGo, hp, List.find?, probeOk, ih]
    | error e => simp [whichGo, hp, List.find?, probeOk, ih]

/-- C5: `which` scans the PATH directories in order and returns the first
candidate whose probe reports a regular executable file — directory-access
errors during the scan count as non-matches — and returns None exactly
when no candidate probes successfully (it never raises: it is a total
function of the probe results). -/
theorem which_spec (env : Env) (name : String) :
    which env name = (candidates env name).find? (probeOk env) ∧
    (which env name = none ↔ ∀ cand ∈ candidates env name, probeOk env cand = false) := by
  have h := whichGo_eq_find env name (pathDirs env)
  have h2 : which env name = (candidates env name).find? (probeOk env) := h
  refine ⟨h2, ?_⟩
  rw [h2, List.find?_eq_none]
  constructor
  · intro hh cand hc
    have := hh cand hc
    simpa using this
  · intro hh cand hc
    simp [hh cand hc]

end ClaudeHeadless

namespace ClaudeHeadless

/-- After a successful binary resolution, `main` is the dispatch on the
argument record with the resolved path substituted. -/
theorem main_eq_dispatch (env : Env) (a : Args) (bin : String)
    (hbin : resolveClaudeBin env a = some bin) :
    main env a = mainDispatch env { a with claude_bin := bin } := by
  unfold main
  rw [hbin]

/-- Substituting the resolved binary path does not change the mode. -/
theorem effectiveMode_set_bin (a : Args) (bin : String) :
    effectiveMode { a with claude_bin := bin } = effectiveMode a := rfl

/-- Substituting the resolved binary path does not change the background flag. -/
theorem background_set_bin (a : Args) (bin : String) :
    ({ a with claude_bin := bin } : Args).background = a.background := rfl

/-- Substituting the resolved binary path does not change the clipboard flag. -/
theorem clipboard_set_bin (a : Args) (bin : String) :
    ({ a with claude_bin := bin } : Args).clipboard = a.clipboard := rfl

/-- Substituting the resolved binary path does not change the working directory. -/
theorem cwd_set_bin (a : Args) (bin : String) :
    ({ a with claude_bin := bin } : Args).cwd = a.cwd := rfl

/-- Substituting the resolved binary path does not change the log directory. -/
theorem log_dir_set_bin (a : Args) (bin : String) :
    ({ a with claude_bin := bin } : Args).log_dir = a.log_dir := rfl

/-- C2: whenever a required external binary cannot be located — the target
binary does not exist at the configured path and a PATH lookup of `claude`
fails, or the resolved mode is interactive and tmux is not on PATH — the
program exits with code 2 and prints a diagnostic naming the missing
binary on stderr. -/
theorem missing_binary_exit2 (env : Env) (a : Args) :
    (env.pathExists a.claude_bin = false → which env "claude" = none →
       (main env a).exitCode = 2 ∧
       ("Error: claude binary not found at " ++ a.claude_bin) ∈ (main env a).stderrLines) ∧
    (∀ bin, resolveClaudeBin env a = some bin → effectiveMode a = Mode.interactive →
       which env "tmux" = none →
       (main env a).exitCode = 2 ∧
       "Error: tmux not found. Install via: brew install tmux" ∈ (main env a).stderrLines) := by
  constructor
  · intro h1 h2
    have hr : resolveClaudeBin env a = none := by
      simp [resolveClaudeBin, h1, h2]
    simp [main, hr]
  · intro bin hbin hmode htmux
    have hm2 : effectiveMode { a with claude_bin := bin } = Mode.interactive := hmode
    simp [main, hbin, mainDispatch, effectiveMode_set_bin, hmode, run_interactive_tmux, htmux]

/-- Witness for C2: a filesystem with no claude binary anywhere gives exit 2
with the claude diagnostic; an interactive invocation with claude present
but tmux absent gives exit 2 with the tmux diagnostic. -/
theorem missing_binary_exit2_witness :
    ((main envStub argsBase).exitCode = 2 ∧
     ("Error: claude binary not found at " ++ argsBase.claude_bin) ∈ (main envStub argsBase).stderrLines) ∧
    ((main envWithClaude argsInteractive).exitCode = 2 ∧
     "Error: tmux not found. Install via: brew install tmux" ∈
       (main envWithClaude argsInteractive).stderrLines) := by
  constructor
  · exact (missing_binary_exit2 envStub argsBase).1 rfl (by decide)
  · exact (missing_binary_exit2 envWithClaude argsInteractive).2 "/usr/local/bin/claude"
      (by decide) (by decide) (by decide)

/-- C3 (amended): once the claude binary is resolved, the synchronous
headless paths propagate the wrapped child's exit code unchanged (the
clipboard path runs the literal script-wrapped vector, the default path
runs the `run_with_pty` vector), while a background launch returns 0
immediately, regardless of the exit code the detached child will
eventually produce. -/
theorem exit_code_propagation (env : Env) (a : Args) (bin : String)
    (hbin : resolveClaudeBin env a = some bin) :
    (a.background = true → effectiveMode a ≠ Mode.interactive →
       (main env a).exitCode = 0) ∧
    (a.background = false → effectiveMode a ≠ Mode.interactive → a.clipboard = true →
       (main env a).exitCode =
         env.runResult (["script", "-q", "/dev/null"] ++ build_headless_cmd { a with claude_bin := bin }) a.cwd) ∧
    (a.background = false → effectiveMode a ≠ Mode.interactive → a.clipboard = false →
       (main env a).exitCode =
         env.runResult (run_with_pty_cmd env (build_headless_cmd { a with claude_bin := bin })) a.cwd) := by
  refine ⟨?_, ?_, ?_⟩
  · intro hbg hmode
    rw [main_eq_dispatch env a bin hbin]
    have hbg2 : ({ a with claude_bin := bin } : Args).background = true := hbg
    have hm2 : effectiveMode { a with claude_bin := bin } ≠ Mode.interactive := hmode
    unfold mainDispatch
    rw [if_pos ⟨hbg2, hm2⟩]
    rfl
  · intro hbg hmode hcb
    rw [main_eq_dispatch env a bin hbin]
    have hnot1 : ¬(({ a with claude_bin := bin } : Args).background = true ∧
        effectiveMode { a with claude_bin := bin } ≠ Mode.interactive) := by
      intro hand
      have hx : a.background = true := hand.1
      rw [hbg] at hx
      exact absurd hx (by decide)
    have hm2 : ¬ effectiveMode { a with claude_bin := bin } = Mode.interactive := hmode
    have hcb2 : ({ a with claude_bin := bin } : Args).clipboard = true := hcb
    unfold mainDispatch
    rw [if_neg hnot1, if_neg hm2, if_pos hcb2]
  · intro hbg hmode hcb
    rw [main_eq_dispatch env a bin hbin]
    have hnot1 : ¬(({ a with claude_bin := bin } : Args).background = true ∧
        effectiveMode { a with claude_bin := bin } ≠ Mode.interactive) := by
      intro hand
      have hx : a.background = true := hand.1
      rw [hbg] at hx
      exact absurd hx (by decide)
    have hm2 : ¬ effectiveMode { a with claude_bin := bin } = Mode.interactive := hmode
    have hcb2 : ¬ ({ a with claude_bin := bin } : Args).clipboard = true := by
      intro hx
      have hy : a.clipboard = true := hx
      rw [hcb] at hy
      exact absurd hy (by decide)
    unfold mainDispatch
    rw [if_neg hnot1, if_neg hm2, if_neg hcb2]
    rfl

/-- Witness for C3: with every synchronous child exiting 7, the default
headless path makes the launcher exit 7. -/
theorem exit_code_propagation_witness : (main envExit7 argsBase).exitCode = 7 := by
  have h := (exit_code_propagation envExit7 argsBase "/usr/local/bin/claude"
    (by decide)).2.2 rfl (by decide) rfl
  exact h.trans (by decide)

/-- Counterexample to C3 as stated: in background mode the launcher exits 0
even though the wrapped child's eventual exit code is 7 — the child's exit
code is not propagated in the background mode. -/
theorem background_exit_code_counterexample :
    (main envBgChild7 argsBackground).exitCode = 0 ∧
    (main envBgChild7 argsBackground).executed = some (build_headless_cmd argsBackground) ∧
    envBgChild7.childExitCode (build_headless_cmd argsBackground) = 7 ∧
    decide ((0 : Int) = 7) = false := by decide

/-- C4 (amended): the background log path is the log directory joined with
the fixed prefix `claude-` plus the second-precision timestamp and `.log`;
the log content is exactly the three header lines (`# Command: ` with the
shell-escaped command line, `# Started: ` with the local timestamp,
`# CWD: ` with the working-directory field) and a blank line, flushed
before — and hence followed by — the child's combined output; the
working-directory field is the configured working directory verbatim when
one was supplied (not necessarily absolute), else the process's current
directory; and the call returns 0. -/
theorem run_background_log_format (env : Env) (cmd : List String)
    (cwd : Option String) (log_dir : String) :
    (run_background env cmd cwd log_dir).logPath =
      osPathJoin log_dir ("claude-" ++ env.strftimeStamp ++ ".log") ∧
    (run_background env cmd cwd log_dir).cwdField = pyOrStr cwd env.getcwd ∧
    (run_background env cmd cwd log_dir).logContent =
      "# Command: " ++ headerCmdLine cmd ++ "\n" ++
      "# Started: " ++ env.strftimeHuman ++ "\n" ++
      "# CWD: " ++ pyOrStr cwd env.getcwd ++ "\n" ++ "\n" ++
      env.childOutput (run_background env cmd cwd log_dir).fullCmd ∧
    (run_background env cmd cwd log_dir).exitCode = 0 :=
  ⟨rfl, rfl, rfl, rfl⟩

/-- Counterexample to C4 as stated: a background run configured with the
relative working directory `..` writes `# CWD: ..` — not an absolute path —
as the third header line. -/
theorem cwd_header_not_absolute :
    (run_background envStub ["ls"] (some "..") "/logs").cwdField = ".." ∧
    isAbsolutePath (run_background envStub ["ls"] (some "..") "/logs").cwdField = false ∧
    (run_background envStub ["ls"] (some "..") "/logs").logContent =
      "# Command: ls\n# Started: 2026-01-01 00:00:00\n# CWD: ..\n\n" := by decide

/-- C10: on the clipboard headless path the executed vector is the literal
`script -q /dev/null` wrapper around the built command, with no PATH probe —
in particular it stays wrapped even when no `script` binary is on PATH,
whereas the probed `run_with_pty` path would fall back to running the bare
command. -/
theorem clipboard_literal_script (env : Env) (a : Args) (bin : String)
    (hbin : resolveClaudeBin env a = some bin)
    (hmode : effectiveMode a ≠ Mode.interactive)
    (hbg : a.background = false) (hcb : a.clipboard = true) :
    (main env a).executed =
      some (["script", "-q", "/dev/null"] ++ build_headless_cmd { a with claude_bin := bin }) ∧
    (which env "script" = none →
       run_with_pty_cmd env (build_headless_cmd { a with claude_bin := bin }) =
         build_headless_cmd { a with claude_bin := bin }) := by
  constructor
  · rw [main_eq_dispatch env a bin hbin]
    have hnot1 : ¬(({ a with claude_bin := bin } : Args).background = true ∧
        effectiveMode { a with claude_bin := bin } ≠ Mode.interactive) := by
      intro hand
      have hx : a.background = true := hand.1
      rw [hbg] at hx
      exact absurd hx (by decide)
    have hm2 : ¬ effectiveMode { a with claude_bin := bin } = Mode.interactive := hmode
    have hcb2 : ({ a with claude_bin := bin } : Args).clipboard = true := hcb
    unfold mainDispatch
    rw [if_neg hnot1, if_neg hm2, if_pos hcb2]
  · intro hw
    unfold run_with_pty_cmd
    rw [hw]

/-- Witness for C10: in an environment with no `script` on PATH, a
clipboard invocation still executes the script-wrapped vector while the
probed pty path would run the bare command. -/
theorem clipboard_literal_script_witness :
    (main envWithClaude argsClipboard).executed =
      some (["script", "-q", "/dev/null"] ++ build_headless_cmd argsClipboard) ∧
    run_with_pty_cmd envWithClaude (build_headless_cmd argsClipboard) =
      build_headless_cmd argsClipboard := by
  have h := clipboard_literal_script envWithClaude argsClipboard "/usr/local/bin/claude"
    (by decide) (by decide) rfl rfl
  exact ⟨h.1.trans (by decide), h.2 (by decide)⟩

end ClaudeHeadless

namespace ClaudeHeadless

/-- The polling loop on a trace whose successful captures never contain the
pattern: with a positive poll interval and enough fuel it returns False at
the first poll multiple at or past the deadline. -/
theorem waitGo_never_found (capture : Capture) (pattern : String)
    (deadline poll : Nat) (hp : 1 ≤ poll)
    (hnf : ∀ t buf, capture t = Except.ok buf → containsSub buf pattern = false) :
    ∀ fuel now, deadline ≤ now + fuel → now < deadline + poll →
      ∃ k, waitGo capture pattern deadline poll now fuel = (false, now + poll * k) ∧
        deadline ≤ now + poll * k ∧ now + poll * k < deadline + poll := by
  intro fuel
  induction fuel with
  | zero =>
    intro now h1 h2
    exact ⟨0, by simp [waitGo], by omega, by omega⟩
  | succ n ih =>
    intro now h1 h2
    by_cases hlt : now < deadline
    · have hrec : ∀ r, waitGo capture pattern deadline poll (now + poll) n = r →
          ∃ k, r = (false, now + poll * k) ∧
            deadline ≤ now + poll * k ∧ now + poll * k < deadline + poll := by
        intro r hr
        obtain ⟨k, hk, hk1, hk2⟩ := ih (now + poll) (by omega) (by omega)
        refine ⟨k + 1, ?_, by rw [Nat.mul_succ]; omega, by rw [Nat.mul_succ]; omega⟩
        rw [← hr, hk, Nat.mul_succ]
        have harith : now + poll + poll * k = now + (poll * k + poll) := by omega
        rw [harith]
      cases hc : capture now with
      | ok buf =>
        have hcont := hnf now buf hc
        obtain ⟨k, hk, hk1, hk2⟩ := hrec _ rfl
        refine ⟨k, ?_, hk1, hk2⟩
        rw [← hk]
        simp [waitGo, hlt, hc, hcont]
      | error e =>
        obtain ⟨k, hk, hk1, hk2⟩ := hrec _ rfl
        refine ⟨k, ?_, hk1, hk2⟩
        rw [← hk]
        simp [waitGo, hlt, hc]
    · refine ⟨0, ?_, by omega, by omega⟩
      simp [waitGo, hlt]

/-- C7: when the pattern never appears in any successful pane capture, the
bounded wait returns False no earlier than its configured timeout and
strictly before timeout plus one poll interval (measured from the start
instant against the deadline computed once at loop entry). -/
theorem tmux_wait_timeout_bounds (capture : Capture) (pattern : String)
    (timeout_ms poll_ms start : Nat) (hp : 1 ≤ poll_ms)
    (hnf : ∀ t buf, capture t = Except.ok buf → containsSub buf pattern = false) :
    ∃ e, tmux_wait_for_text capture pattern timeout_ms poll_ms start = (false, e) ∧
      start + timeout_ms ≤ e ∧ e < start + timeout_ms + poll_ms := by
  obtain ⟨k, hk, h1, h2⟩ := waitGo_never_found capture pattern (start + timeout_ms) poll_ms hp hnf
    (timeout_ms + 1) start (by omega) (by omega)
  exact ⟨start + poll_ms * k, hk, h1, h2⟩

/-- Witness for C7: a trace that never shows the pattern, timeout 1200ms,
poll 500ms. -/
theorem tmux_wait_timeout_bounds_witness :
    ∃ e, tmux_wait_for_text capNoMatch "Yes, I trust this folder" 1200 500 0 = (false, e) ∧
      0 + 1200 ≤ e ∧ e < 0 + 1200 + 500 :=
  tmux_wait_timeout_bounds capNoMatch "Yes, I trust this folder" 1200 500 0 (by decide)
    (fun t buf hb => by
      have hb2 : ("hello" : String) = buf := by
        have := hb
        simp only [capNoMatch] at this
        exact Except.ok.inj this
      rw [← hb2]
      decide)

/-- C9: when every pane capture fails, the bounded wait swallows each
failure, still sleeps one poll interval per iteration (the return clock is
the start plus a whole number of poll intervals) and keeps polling until
the deadline, returning False within the same window as an uneventful
wait — it neither raises nor aborts early. -/
theorem tmux_wait_capture_error_spec (capture : Capture) (pattern : String)
    (timeout_ms poll_ms start : Nat) (hp : 1 ≤ poll_ms)
    (herr : ∀ t, capture t = Except.error ()) :
    ∃ k, tmux_wait_for_text capture pattern timeout_ms poll_ms start = (false, start + poll_ms * k) ∧
      start + timeout_ms ≤ start + poll_ms * k ∧
      start + poll_ms * k < start + timeout_ms + poll_ms := by
  have hnf : ∀ t buf, capture t = Except.ok buf → containsSub buf pattern = false := by
    intro t buf h
    rw [herr t] at h
    exact Except.noConfusion h
  exact waitGo_never_found capture pattern (start + timeout_ms) poll_ms hp hnf
    (timeout_ms + 1) start (by omega) (by omega)

/-- Witness for C9: an always-failing capture trace, timeout 1000ms, poll
400ms. -/
theorem tmux_wait_capture_error_witness :
    ∃ k, tmux_wait_for_text capErrAll "x" 1000 400 0 = (false, 0 + 400 * k) ∧
      0 + 1000 ≤ 0 + 400 * k ∧ 0 + 400 * k < 0 + 1000 + 400 :=
  tmux_wait_capture_error_spec capErrAll "x" 1000 400 0 (by decide) (fun _ => rfl)

/-- C6: the TrustPrompt step polls 20s at 0.5s for the trust-prompt
substring; when the substring never appears in any successful capture the
step sends no keystroke and completes silently exactly at the timeout — a
skipped step, not an error; when the first poll finds the substring it
sends Enter, waits 0.8s, re-polls 2s at 0.5s from that instant for the
same substring, and sends a literal "1" followed by Enter exactly when the
re-poll still finds it. -/
theorem trust_prompt_step_spec (capture : Capture) (start : Nat) :
    ((∀ t buf, capture t = Except.ok buf → containsSub buf trustPromptPattern = false) →
       run_trust_prompt capture start = ([], start + 20000)) ∧
    ((tmux_wait_for_text capture trustPromptPattern 20000 500 start).1 = false →
       run_trust_prompt capture start =
         ([], (tmux_wait_for_text capture trustPromptPattern 20000 500 start).2)) ∧
    ((tmux_wait_for_text capture trustPromptPattern 20000 500 start).1 = true →
       ((tmux_wait_for_text capture trustPromptPattern 2000 500
           ((tmux_wait_for_text capture trustPromptPattern 20000 500 start).2 + 800)).1 = true →
          run_trust_prompt capture start =
            ([TmuxKey.enter, TmuxKey.lit "1", TmuxKey.enter],
             (tmux_wait_for_text capture trustPromptPattern 2000 500
               ((tmux_wait_for_text capture trustPromptPattern 20000 500 start).2 + 800)).2)) ∧
       ((tmux_wait_for_text capture trustPromptPattern 2000 500
           ((tmux_wait_for_text capture trustPromptPattern 20000 500 start).2 + 800)).1 = false →
          run_trust_prompt capture start =
            ([TmuxKey.enter],
             (tmux_wait_for_text capture trustPromptPattern 2000 500
               ((tmux_wait_for_text capture trustPromptPattern 20000 500 start).2 + 800)).2))) := by
  refine ⟨?_, ?_, ?_⟩
  · intro hnf
    obtain ⟨k, hk, h1, h2⟩ := waitGo_never_found capture trustPromptPattern (start + 20000) 500
      (by decide) hnf (20000 + 1) start (by omega) (by omega)
    have hke : start + 500 * k = start + 20000 := by omega
    have hw : tmux_wait_for_text capture trustPromptPattern 20000 500 start = (false, start + 20000) := by
      rw [tmux_wait_for_text, hk, hke]
    simp [run_trust_prompt, hw]
  · intro h1
    simp [run_trust_prompt, h1]
  · intro h1
    constructor
    · intro h2
      simp [run_trust_prompt, h1, h2]
    · intro h2
      simp [run_trust_prompt, h1, h2]

/-- Witness for C6: a trace that always shows the trust prompt makes the
step send Enter, then "1" and Enter, finishing 800ms after the immediate
first match. -/
theorem trust_prompt_step_witness :
    run_trust_prompt capTrustShown 0 = ([TmuxKey.enter, TmuxKey.lit "1", TmuxKey.enter], 800) := by
  have h := ((trust_prompt_step_spec capTrustShown 0).2.2 (by decide)).1 (by decide)
  exact h.trans (by decide)

end ClaudeHeadless

namespace ClaudeHeadless

/-- Step equation of the splitter in between-words state. -/
theorem sp_between_cons (c : Char) (cs acc : List Char) :
    splitPosix SplitState.between (c :: cs) acc =
    (if isIFS c = true then splitPosix SplitState.between cs []
     else if c = squote then splitPosix SplitState.singleQ cs []
     else if c = dquote then splitPosix SplitState.doubleQ cs []
     else if c = bslash then splitPosix SplitState.escWord cs []
     else splitPosix SplitState.word cs [c]) := rfl

/-- Step equation of the splitter in bare-word state. -/
theorem sp_word_cons (c : Char) (cs acc : List Char) :
    splitPosix SplitState.word (c :: cs) acc =
    (if isIFS c = true then
      (splitPosix SplitState.between cs []).map (fun ws => String.mk acc.reverse :: ws)
    else if c = squote then splitPosix SplitState.singleQ cs acc
    else if c = dquote then splitPosix SplitState.doubleQ cs acc
    else if c = bslash then splitPosix SplitState.escWord cs acc
    else splitPosix SplitState.word cs (c :: acc)) := rfl

/-- Step equation of the splitter inside single quotes. -/
theorem sp_singleQ_cons (c : Char) (cs acc : List Char) :
    splitPosix SplitState.singleQ (c :: cs) acc =
    (if c = squote then splitPosix SplitState.word cs acc
     else splitPosix SplitState.singleQ cs (c :: acc)) := rfl

/-- Step equation of the splitter inside double quotes. -/
theorem sp_doubleQ_cons (c : Char) (cs acc : List Char) :
    splitPosix SplitState.doubleQ (c :: cs) acc =
    (if c = dquote then splitPosix SplitState.word cs acc
     else if c = bslash then splitPosix SplitState.escDQ cs acc
     else splitPosix SplitState.doubleQ cs (c :: acc)) := rfl

/-- End-of-input equation of the splitter in bare-word state. -/
theorem sp_word_nil (acc : List Char) :
    splitPosix SplitState.word [] acc = some [String.mk acc.reverse] := rfl

/-- Step equation of the single-quote escaping. -/
theorem escapeSQ_cons (c : Char) (cs : List Char) :
    escapeSQ (c :: cs) =
    (if c = squote then squote :: dquote :: squote :: dquote :: squote :: escapeSQ cs
     else c :: escapeSQ cs) := rfl

/-- A shlex-safe character is not a field separator, quote or backslash. -/
theorem safe_char_facts {c : Char} (h : isShSafe c = true) :
    isIFS c = false ∧ c ≠ squote ∧ c ≠ dquote ∧ c ≠ bslash := by
  refine ⟨?_, ?_, ?_, ?_⟩
  · cases hif : isIFS c
    · rfl
    · exfalso
      simp only [isIFS, Bool.or_eq_true, beq_iff_eq] at hif
      rcases hif with (h1 | h1) | h1 <;> (subst h1; exact absurd h (by decide))
  · intro he; subst he; exact absurd h (by decide)
  · intro he; subst he; exact absurd h (by decide)
  · intro he; subst he; exact absurd h (by decide)

/-- A run of safe characters is consumed into the current word. -/
theorem split_word_safe :
    ∀ (cs : List Char), cs.all isShSafe = true → ∀ (rest acc : List Char),
      splitPosix SplitState.word (cs ++ rest) acc =
        splitPosix SplitState.word rest (cs.reverse ++ acc) := by
  intro cs
  induction cs with
  | nil => intro _ rest acc; simp
  | cons c cs ih =>
    intro hall rest acc
    rw [List.all_cons, Bool.and_eq_true] at hall
    obtain ⟨hc, hcs⟩ := hall
    obtain ⟨hifs, hsq, hdq, hbs⟩ := safe_char_facts hc
    have hifs2 : ¬ (isIFS c = true) := by rw [hifs]; exact Bool.false_ne_true
    rw [List.cons_append, sp_word_cons, if_neg hifs2, if_neg hsq, if_neg hdq, if_neg hbs]
    rw [ih hcs rest (c :: acc)]
    simp [List.append_assoc]

/-- Parsing the single-quote escape of a string from inside single quotes
consumes it into the current word and returns to bare-word state at the
closing quote. -/
theorem split_sq_escape :
    ∀ (cs rest acc : List Char),
      splitPosix SplitState.singleQ (escapeSQ cs ++ (squote :: rest)) acc =
        splitPosix SplitState.word rest (cs.reverse ++ acc) := by
  intro cs
  induction cs with
  | nil =>
    intro rest acc
    show splitPosix SplitState.singleQ (squote :: rest) acc = _
    rw [sp_singleQ_cons, if_pos rfl]
    simp
  | cons c cs ih =>
    intro rest acc
    by_cases hc : c = squote
    · subst hc
      rw [escapeSQ_cons, if_pos rfl]
      simp only [List.cons_append]
      rw [sp_singleQ_cons, if_pos rfl]
      rw [sp_word_cons, if_neg (by decide : ¬ (isIFS dquote = true)),
        if_neg (by decide : ¬ (dquote = squote)), if_pos rfl]
      rw [sp_doubleQ_cons, if_neg (by decide : ¬ (squote = dquote)),
        if_neg (by decide : ¬ (squote = bslash))]
      rw [sp_doubleQ_cons, if_pos rfl]
      rw [sp_word_cons, if_neg (by decide : ¬ (isIFS squote = true)), if_pos rfl]
      rw [ih rest (squote :: acc)]
      simp [List.append_assoc]
    · rw [escapeSQ_cons, if_neg hc]
      rw [List.cons_append, sp_singleQ_cons, if_neg hc]
      rw [ih rest (c :: acc)]
      simp [List.append_assoc]

/-- Parsing a `shlex.quote`d string from between-words state consumes it as
one word whose content is the original string. -/
theorem quote_word (s : String) (rest : List Char) :
    splitPosix SplitState.between ((shlexQuote s).data ++ rest) [] =
      splitPosix SplitState.word rest s.data.reverse := by
  by_cases h0 : s = ""
  · subst h0
    rw [show (shlexQuote "").data = [squote, squote] from rfl]
    simp only [List.cons_append, List.nil_append]
    rw [sp_between_cons, if_neg (by decide : ¬ (isIFS squote = true)), if_pos rfl]
    rw [sp_singleQ_cons, if_pos rfl]
    rfl
  · by_cases hsafe : s.data.all isShSafe = true
    · have hq : shlexQuote s = s := by
        rw [shlexQuote, if_neg h0, if_pos hsafe]
      rw [hq]
      obtain ⟨c, cs, hd⟩ : ∃ c cs, s.data = c :: cs := by
        cases hdd : s.data with
        | nil =>
          exfalso
          apply h0
          cases s with
          | mk l => cases hdd; rfl
        | cons c cs => exact ⟨c, cs, rfl⟩
      rw [hd]
      have hall := hsafe
      rw [hd, List.all_cons, Bool.and_eq_true] at hall
      obtain ⟨hc, hcs⟩ := hall
      obtain ⟨hifs, hsq, hdq, hbs⟩ := safe_char_facts hc
      have hifs2 : ¬ (isIFS c = true) := by rw [hifs]; exact Bool.false_ne_true
      rw [List.cons_append, sp_between_cons, if_neg hifs2, if_neg hsq, if_neg hdq,
        if_neg hbs]
      rw [split_word_safe cs hcs rest [c]]
      simp
    · have hq : (shlexQuote s).data = squote :: (escapeSQ s.data ++ [squote]) := by
        rw [shlexQuote, if_neg h0, if_neg hsafe]
      rw [hq]
      rw [List.cons_append, sp_between_cons,
        if_neg (by decide : ¬ (isIFS squote = true)), if_pos rfl]
      rw [List.append_assoc]
      rw [show ([squote] ++ rest : List Char) = squote :: rest from rfl]
      rw [split_sq_escape s.data rest []]
      simp

/-- C8: rendering any command vector into the log header's shell-escaped
command line and shell-unescaping (splitting) that line reproduces the
original vector exactly, including elements with embedded spaces, quotes
and other special characters. -/
theorem headerCmdLine_roundtrip (cmd : List String) :
    posixSplit (headerCmdLine cmd) = some cmd := by
  induction cmd with
  | nil => rfl
  | cons s rest ih =>
    cases rest with
    | nil =>
      show splitPosix SplitState.between (headerCmdLine [s]).data [] = some [s]
      rw [show headerCmdLine [s] = shlexQuote s from rfl]
      have h := quote_word s []
      rw [List.append_nil] at h
      rw [h, sp_word_nil]
      simp
    | cons t ts =>
      show splitPosix SplitState.between (headerCmdLine (s :: t :: ts)).data [] =
        some (s :: t :: ts)
      have hdata : (headerCmdLine (s :: t :: ts)).data =
          (shlexQuote s).data ++ (' ' :: (headerCmdLine (t :: ts)).data) := by
        rw [show headerCmdLine (s :: t :: ts) =
          shlexQuote s ++ " " ++ headerCmdLine (t :: ts) from rfl]
        rw [data_append, data_append]
        rw [show (" " : String).data = [' '] from rfl]
        simp [List.append_assoc]
      rw [hdata, quote_word s (' ' :: (headerCmdLine (t :: ts)).data)]
      rw [sp_word_cons, if_pos (by decide : isIFS ' ' = true)]
      have ih2 : splitPosix SplitState.between (headerCmdLine (t :: ts)).data [] =
          some (t :: ts) := ih
      rw [ih2]
      simp [List.reverse_reverse, string_mk_data]

end ClaudeHeadless
